import Mathlib

/-
Verification of the hzchat-server room hub and connection lifecycle.

The definitions below are a shallow embedding of the Go sources:
  internal/app/chat/client.go        (Client, pumps, send helpers, Kick)
  the chat room file (Room, handleRegister, handleUnregister,
    handleBroadcast, IsFull, RegisterClient)
  the chat attachment file (ValidateFileType, AllowedMIMETypes, ExtToMIME)
  internal/pkg/errs (error codes and the error map revision that is
    consistent with error_codes.go, which carries the 22xx attachment codes)
  internal/pkg/auth/jwt/token.go     (GenerateToken, modelled symbolically)

Go channels are modelled explicitly: a bounded send queue is a list of
marshalled frames plus a closed flag; a non-blocking select send appends
when the queue is open and below capacity and otherwise takes the default
branch; the recurring guarded-close idiom
  select case recv from ch / default close ch
is modelled by guardedClose exactly as Go executes it: a receive from a
closed or non-empty channel is ready and is taken (consuming one element
when the queue is non-empty), and only an open empty queue is closed.

The message construction file of the repository is not part of the
sources available here; Message, NewMessage, SystemUser and the payload
shapes are modelled from the spec (wire schema in section 6) and from
their uses inside the available sources. Fresh UUIDs are modelled by a
natural-number counter and timestamps by integers (milliseconds).
-/

namespace Hz

/-- User mirrors the User struct of internal/app/user/user.go. -/
structure User where
  ID : String
  Nickname : String
  Avatar : String
  UserType : String
deriving DecidableEq, Repr

/-- Modelled from the spec: the reserved System user that authors all
server-originated events (the message construction file is not among the
available sources). Its concrete field values do not matter to any claim;
only that it is a fixed distinguished user. -/
def SystemUser : User := { ID := "system", Nickname := "System", Avatar := "", UserType := "system" }

/-- Modelled from the spec: the message type enumeration of the wire schema. -/
inductive MessageType where
  | text
  | attachments
  | userJoined
  | userLeft
  | error
  | initData
  | confirm
  | tokenUpdate
deriving DecidableEq, Repr

/-- Attachment mirrors the Attachment struct of the chat attachment file;
Meta models the raw client-supplied meta JSON (none models nil). -/
structure Attachment where
  Key : String
  Name : String
  MimeType : String
  Size : Int
  Meta : Option String
deriving DecidableEq, Repr

/-- TextPayload of the wire schema: the content of a TEXT message. -/
structure TextPayload where
  Content : String
deriving DecidableEq, Repr

/-- AttachmentsPayload of the wire schema: optional description plus the
attachment list. -/
structure AttachmentsPayload where
  Description : String
  Attachments : List Attachment
deriving DecidableEq, Repr

/-- TokenPayload mirrors the jwt Payload identity fields used by
checkAndRefreshToken in client.go. -/
structure TokenPayload where
  ID : String
  Code : String
  UserType : String
deriving DecidableEq, Repr

/-- Token models a signed JWT produced by GenerateToken in token.go,
symbolically: the claims it certifies and the secret that signed it.
Times are integers in milliseconds. -/
structure Token where
  payload : TokenPayload
  secret : String
  issuedAt : Int
  expiresAt : Int
deriving DecidableEq, Repr

/-- Modelled from the spec: the payload variants of the wire schema
(section 6), with field shapes matching their construction sites in the
available sources. -/
inductive Payload where
  | text (p : TextPayload)
  | attachments (p : AttachmentsPayload)
  | userEvent (u : User)
  | initData (currentUser : User) (onlineUsers : List User) (maxUsers : Int)
  | error (code : Int) (message : String)
  | confirm (tempId : String) (msgId : Nat) (timestamp : Int)
  | tokenUpdate (tok : Token)
deriving DecidableEq, Repr

/-- Modelled from the spec: the Message envelope. The UUID v4 id is
modelled by a natural number drawn from a freshness counter, the
timestamp by an integer (milliseconds since epoch). -/
structure Message where
  ID : Nat
  MsgType : MessageType
  RoomCode : String
  Sender : User
  Timestamp : Int
  Payload : Payload
deriving DecidableEq, Repr

/-- Modelled from the spec: NewMessage constructs the authoritative
Message, assigning the fresh id and the current timestamp supplied by the
caller context. -/
def NewMessage (freshId : Nat) (now : Int) (t : MessageType) (roomCode : String)
    (sender : User) (p : Payload) : Message :=
  { ID := freshId, MsgType := t, RoomCode := roomCode, Sender := sender,
    Timestamp := now, Payload := p }

/-- MarshalledBytes represents the output of json.Marshal on a Message:
an opaque byte buffer identified by the message it encodes. -/
structure MarshalledBytes where
  msg : Message
deriving DecidableEq, Repr

/-- marshal models json.Marshal on a Message (total: marshalling the
message structs of this codebase cannot fail). -/
def marshal (m : Message) : MarshalledBytes := ⟨m⟩

/-- Capacity of a client send queue (client.go NewClient: make chan with 256). -/
def sendQueueCapacity : Nat := 256

/-- SendQueue models the buffered outbound channel of a Client: the
queued frames in FIFO order plus whether close has been called on it. -/
structure SendQueue where
  items : List MarshalledBytes
  closed : Bool
deriving DecidableEq, Repr

/-- freshSendQueue is the queue NewClient creates: empty, open, capacity 256. -/
def freshSendQueue : SendQueue := { items := [], closed := false }

/-- trySend models the non-blocking select send used by sendMessage in
client.go and by the fan-out in handleBroadcast: the frame is appended
when the queue is open and below capacity, otherwise the default branch
is taken and the send reports failure. (A Go send on a closed channel
panics even inside a select; the room loop only ever enqueues to open
queues, and the failure branch uniformly models the non-delivery.) -/
def SendQueue.trySend (q : SendQueue) (b : MarshalledBytes) : SendQueue × Bool :=
  if q.closed then (q, false)
  else if sendQueueCapacity ≤ q.items.length then (q, false)
  else ({ q with items := q.items ++ [b] }, true)

/-- guardedClose models the idiom select case recv from ch default close
ch, exactly as Go executes it: a receive from a closed channel is ready
and returns immediately (the queue stays closed), a receive from an open
non-empty buffered channel is ready and consumes the head element (the
queue stays open), and only when the queue is open and empty does the
default branch run and close it. -/
def SendQueue.guardedClose (q : SendQueue) : SendQueue :=
  if q.closed then q
  else
    match q.items with
    | [] => { q with closed := true }
    | _ :: rest => { q with items := rest }

/-! Error codes and the error map (internal/pkg/errs). The map entries
are those of the error_map.go revision that is consistent with
error_codes.go and with the formatted NewError call in client.go. -/

def errInvalidParams : Int := 1001
def errRoomIsFull : Int := 2104
def errMessageContentTooLong : Int := 2201
def errAttachmentCountInvalid : Int := 2203
def errAttachmentKeyInvalid : Int := 2204
def errUnknown : Int := 5000

/-- CustomError mirrors the business part of errs.CustomError (the HTTP
status field plays no role over the WebSocket). -/
structure CustomError where
  Code : Int
  Message : String
deriving DecidableEq, Repr

/-- errorMapLookup lists the errorMap entries reachable from the chat
path, from the error_map.go revision consistent with error_codes.go. -/
def errorMapLookup (code : Int) : Option CustomError :=
  if code = errInvalidParams then
    some { Code := errInvalidParams, Message := "Invalid or missing parameters." }
  else if code = errRoomIsFull then
    some { Code := errRoomIsFull, Message := "The chat has reached its maximum client capacity" }
  else if code = errMessageContentTooLong then
    some { Code := errMessageContentTooLong,
           Message := "The message content exceeds the maximum allowed length." }
  else if code = errAttachmentCountInvalid then
    some { Code := errAttachmentCountInvalid,
           Message := "The number of attachments is outside the allowed range (1 to %d)." }
  else if code = errAttachmentKeyInvalid then
    some { Code := errAttachmentKeyInvalid,
           Message := "Attachment file key is invalid or does not belong to this room." }
  else if code = errUnknown then
    some { Code := errUnknown, Message := "An unexpected server error occurred." }
  else none

/-- fallbackUnknown is the entry NewError returns for a code absent from
the map. -/
def fallbackUnknown : CustomError :=
  { Code := errUnknown, Message := "An unexpected server error occurred." }

/-- NewError models errs.NewError without formatting details: the map
template for the code, with the unknown-error fallback. -/
def NewError (code : Int) : CustomError :=
  (errorMapLookup code).getD fallbackUnknown

/-- substPercentD replaces the first percent-d verb of a printf template,
modelling the single-argument Sprintf call inside errs.NewError. -/
def substPercentD : List Char → Nat → List Char
  | [], _ => []
  | '%' :: 'd' :: rest, n => (toString n).toList ++ rest
  | c :: rest, n => c :: substPercentD rest n

/-- NewErrorD models errs.NewError with one integer formatting detail
(used for the attachment-count error, whose template carries percent-d). -/
def NewErrorD (code : Int) (d : Nat) : CustomError :=
  let base := NewError code
  { base with Message := String.mk (substPercentD base.Message.toList d) }

/-- GoError models the dynamic error value handed to Client.SendError:
either a typed errs.CustomError or a plain error built with fmt.Errorf. -/
inductive GoError where
  | custom (e : CustomError)
  | plain (msg : String)
deriving DecidableEq, Repr

/-- mkSendErrorEnvelope models the ERROR envelope SendError builds
(client.go): a CustomError contributes its code and message, any other
error contributes code ErrUnknown and an Internal-server-error text. -/
def mkSendErrorEnvelope (roomCode : String) (freshId : Nat) (now : Int)
    (err : GoError) : Message :=
  let codeMsg : Int × String :=
    match err with
    | .custom e => (e.Code, e.Message)
    | .plain m => (errUnknown, "Internal server error: " ++ m)
  NewMessage freshId now .error roomCode SystemUser (.error codeMsg.1 codeMsg.2)

/-- SendError models Client.SendError: build the ERROR envelope and
enqueue it with non-blocking semantics (a full queue drops the frame). -/
def SendError (q : SendQueue) (roomCode : String) (freshId : Nat) (now : Int)
    (err : GoError) : SendQueue :=
  (q.trySend (marshal (mkSendErrorEnvelope roomCode freshId now err))).1

/-! Association lists model the Go maps (members keyed by user id, one
queue per connection identity). -/

def alookup {α β : Type} [DecidableEq α] : List (α × β) → α → Option β
  | [], _ => none
  | (k, v) :: rest, a => if k = a then some v else alookup rest a

/-- ainsert models Go map assignment: overwrite the entry when the key is
present, append it otherwise. -/
def ainsert {α β : Type} [DecidableEq α] : List (α × β) → α → β → List (α × β)
  | [], k, v => [(k, v)]
  | (k0, v0) :: rest, k, v =>
    if k0 = k then (k, v) :: rest else (k0, v0) :: ainsert rest k v

/-- aerase models Go map delete. -/
def aerase {α β : Type} [DecidableEq α] : List (α × β) → α → List (α × β)
  | [], _ => []
  | (k0, v0) :: rest, k =>
    if k0 = k then aerase rest k else (k0, v0) :: aerase rest k

/-- aupdate applies a function to the value stored at a key (the model of
mutating the object a Go map entry points to). -/
def aupdate {α β : Type} [DecidableEq α] (l : List (α × β)) (k : α) (f : β → β) :
    List (α × β) :=
  l.map (fun kv => if kv.1 = k then (kv.1, f kv.2) else kv)

/-- Custom close code 4001 for replaced sessions (client.go). -/
def wsCloseCodeSessionKicked : Int := 4001

/-- Maximum text content size in bytes (client.go MaxContentBytes). -/
def MaxContentBytes : Nat := 5000

/-- Maximum attachments per message (client.go MaxAttachmentsCount). -/
def MaxAttachmentsCount : Nat := 3

/-- ClientState models the per-connection state of a Client that its own
methods touch: identity, room code, token expiry, the outbound queue, and
the WebSocket close frames written so far (code and reason). -/
structure ClientState where
  usr : User
  roomCode : String
  tokenExpiry : Int
  send : SendQueue
  closeFrames : List (Int × String)
deriving DecidableEq, Repr

/-- Kick models Client.Kick (client.go): write a Close frame with code
4001 and the reason, then run the guarded close on the outbound queue. -/
def Kick (reason : String) (c : ClientState) : ClientState :=
  { c with
    closeFrames := c.closeFrames ++ [(wsCloseCodeSessionKicked, reason)],
    send := c.send.guardedClose }

/-! The Room. A connection inside the room is identified by its user
snapshot and a connection identity (the model of the Go pointer to the
Client object); the members map is keyed by user id as in the source, and
the send queues live in a separate map keyed by connection identity so
that queues of kicked or rejected connections remain observable. -/

structure Conn where
  usr : User
  connId : Nat
deriving DecidableEq, Repr

/-- Capacity of the buffered broadcast channel. -/
def broadcastChannelBuffer : Nat := 1024

/-- RoomState carries the state owned by one room event loop. bcast is
the pending content of the buffered broadcast channel;
unregScheduleAttempts records the connections for which a non-blocking
send on the (unbuffered) unregister channel was attempted;
closeFrames records Close frames written by Kick, tagged by connection
identity; fresh is the UUID counter and clock the wall clock feeding
NewMessage. -/
structure RoomState where
  code : String
  maxClients : Int
  jwtSecret : String
  members : List (String × Conn)
  queues : List (Nat × SendQueue)
  bcast : List Message
  unregScheduleAttempts : List Conn
  closeFrames : List (Nat × Int × String)
  timerArmed : Bool
  fresh : Nat
  clock : Int
deriving DecidableEq, Repr

/-- initRoom models NewRoom: no members, fresh channels, timer armed. -/
def initRoom (code : String) (maxClients : Int) (secret : String) (clock : Int) : RoomState :=
  { code := code, maxClients := maxClients, jwtSecret := secret,
    members := [], queues := [], bcast := [], unregScheduleAttempts := [],
    closeFrames := [], timerArmed := true, fresh := 0, clock := clock }

/-- getQueue reads the queue of a connection (a connection that was never
created reads as a fresh queue; all reachable uses have the entry). -/
def getQueue (s : RoomState) (connId : Nat) : SendQueue :=
  (alookup s.queues connId).getD freshSendQueue

/-- pushBroadcast models the non-blocking send on the buffered broadcast
channel used by the loop for its own system events: append below
capacity, drop (with a log) on overflow. -/
def pushBroadcast (s : RoomState) (m : Message) : RoomState :=
  if s.bcast.length < broadcastChannelBuffer then { s with bcast := s.bcast ++ [m] }
  else s

/-- kickConn is Client.Kick as seen from the room state: the 4001 close
frame is recorded against the kicked connection and its queue receives
the guarded close. -/
def kickConn (s : RoomState) (connId : Nat) (reason : String) : RoomState :=
  { s with
    closeFrames := s.closeFrames ++ [(connId, wsCloseCodeSessionKicked, reason)],
    queues := aupdate s.queues connId SendQueue.guardedClose }

/-- handleRegister models Room.handleRegister. The returned flag is true
exactly on the branch where the source performs a direct blocking send on
the unbuffered unregister channel after SendInitData fails: the event
loop is the sole receiver of that channel, so that send can never
complete and the loop blocks there. -/
def handleRegister (s : RoomState) (c : Conn) : RoomState × Bool :=
  let s1 :=
    match alookup s.members c.usr.ID with
    | some old => kickConn s old.connId "Session replaced by new connection. Check other tabs."
    | none => s
  let s2 := { s1 with timerArmed := false }
  if (alookup s2.members c.usr.ID).isNone ∧ 0 < s2.maxClients ∧
      s2.maxClients ≤ (s2.members.length : Int) then
    let q0 := getQueue s2 c.connId
    let q1 := SendError q0 s2.code s2.fresh s2.clock (.plain "room is full")
    let q2 := q1.guardedClose
    ({ s2 with queues := ainsert s2.queues c.connId q2, fresh := s2.fresh + 1 }, false)
  else
    let s3 := { s2 with members := ainsert s2.members c.usr.ID c }
    let onlineUsers := s3.members.map (fun kv => kv.2.usr)
    let initMsg := NewMessage s3.fresh s3.clock .initData s3.code SystemUser
      (.initData c.usr onlineUsers s3.maxClients)
    let sendRes := (getQueue s3 c.connId).trySend (marshal initMsg)
    let s4 := { s3 with queues := ainsert s3.queues c.connId sendRes.1, fresh := s3.fresh + 1 }
    if sendRes.2 = false then (s4, true)
    else
      let joined := NewMessage s4.fresh s4.clock .userJoined s4.code SystemUser (.userEvent c.usr)
      (pushBroadcast { s4 with fresh := s4.fresh + 1 } joined, false)

/-- handleUnregister models Room.handleUnregister. The Go identity
comparison of Client pointers is the comparison of connection
identities. On a stale or unknown connection nothing at all happens. -/
def handleUnregister (s : RoomState) (c : Conn) : RoomState :=
  match alookup s.members c.usr.ID with
  | some current =>
    if current.connId = c.connId then
      let members1 := aerase s.members c.usr.ID
      let queues1 := aupdate s.queues c.connId SendQueue.guardedClose
      let leftMsg := NewMessage s.fresh s.clock .userLeft s.code SystemUser (.userEvent c.usr)
      let s1 := pushBroadcast
        { s with members := members1, queues := queues1, fresh := s.fresh + 1 } leftMsg
      if members1.length = 0 then { s1 with timerArmed := true } else s1
    else s
  | none => s

/-- fanout is the member iteration of handleBroadcast: skip the sender,
try a non-blocking enqueue of the one marshalled buffer on every other
member, and on failure attempt the non-blocking send on the unregister
channel for that member (recorded in the attempts list; the channel is
unbuffered and its only receiver is the loop running this very code). -/
def fanout (bytes : MarshalledBytes) (senderID : String) :
    List (String × Conn) → List (Nat × SendQueue) → List Conn →
    List (Nat × SendQueue) × List Conn
  | [], qs, att => (qs, att)
  | (_, cl) :: rest, qs, att =>
    if cl.usr.ID ≠ senderID then
      let q := (alookup qs cl.connId).getD freshSendQueue
      let res := q.trySend bytes
      if res.2 then fanout bytes senderID rest (ainsert qs cl.connId res.1) att
      else fanout bytes senderID rest qs (att ++ [cl])
    else fanout bytes senderID rest qs att

/-- handleBroadcast models Room.handleBroadcast: ERROR messages are
dropped, any other message is marshalled once and fanned out. -/
def handleBroadcast (s : RoomState) (m : Message) : RoomState :=
  if m.MsgType = .error then s
  else
    let bytes := marshal m
    let res := fanout bytes m.Sender.ID s.members s.queues s.unregScheduleAttempts
    { s with queues := res.1, unregScheduleAttempts := res.2 }

/-- IsFull models Room.IsFull with the re-entry exemption: a non-empty id
already present in the members map is never counted against capacity. -/
def IsFull (s : RoomState) (checkID : String) : Bool :=
  if checkID ≠ "" ∧ (alookup s.members checkID).isSome then false
  else decide (0 < s.maxClients ∧ s.maxClients ≤ (s.members.length : Int))

/-! Attachment validation (chat attachment file). -/

/-- asciiLower models strings.ToLower on the ASCII range used by MIME
types and file extensions. -/
def asciiLower (s : String) : String := String.mk (s.toList.map Char.toLower)

/-- goHasPrefix models strings.HasPrefix. -/
def goHasPrefix (s pre : String) : Bool := pre.toList.isPrefixOf s.toList

/-- extFromRev walks the reversed character list of a path and returns
the suffix from the final dot of the final element, as filepath.Ext does:
a slash before any dot means no extension. -/
def extFromRev (acc : List Char) : List Char → String
  | [] => ""
  | c :: rest =>
    if c = '/' then ""
    else if c = '.' then String.mk ('.' :: acc)
    else extFromRev (c :: acc) rest

/-- filepathExt models filepath.Ext. -/
def filepathExt (name : String) : String := extFromRev [] name.toList.reverse

/-- AllowedMIMETypes of the chat attachment file. -/
def AllowedMIMETypes : List String := ["image/jpeg", "image/png", "image/webp", "image/gif"]

/-- ExtToMIME of the chat attachment file. -/
def ExtToMIME (ext : String) : Option String :=
  if ext = ".jpg" then some "image/jpeg"
  else if ext = ".jpeg" then some "image/jpeg"
  else if ext = ".png" then some "image/png"
  else if ext = ".webp" then some "image/webp"
  else if ext = ".gif" then some "image/gif"
  else none

/-- ValidateFileType models the function of the same name: none means the
pair passed, some e is the CustomError the source returns. -/
def ValidateFileType (fileName mimeType : String) : Option CustomError :=
  let lowerMimeType := asciiLower mimeType
  if ¬ (lowerMimeType ∈ AllowedMIMETypes) then some (NewError errInvalidParams)
  else
    let ext := asciiLower (filepathExt fileName)
    if ext = "" ∨ ext.length < 2 then some (NewError errInvalidParams)
    else
      match ExtToMIME ext with
      | none => some (NewError errInvalidParams)
      | some expectedMIME =>
        if expectedMIME ≠ lowerMimeType then some (NewError errInvalidParams)
        else none

/-- expectedKeyPrefix is the per-room object key prefix
(handleAttachments builds roomCode followed by a slash). -/
def expectedKeyPrefix (roomCode : String) : String := roomCode ++ "/"

/-- validateAttachments is the per-attachment loop of handleAttachments:
first the key prefix check (attachment-key-invalid), then
ValidateFileType, then the client-supplied meta is cleared; the first
failing attachment aborts with its error. -/
def validateAttachments (roomCode : String) : List Attachment →
    Except CustomError (List Attachment)
  | [] => .ok []
  | a :: rest =>
    if ¬ goHasPrefix a.Key (expectedKeyPrefix roomCode) then
      .error (NewError errAttachmentKeyInvalid)
    else
      match ValidateFileType a.Name a.MimeType with
      | some e => .error e
      | none =>
        match validateAttachments roomCode rest with
        | .error e => .error e
        | .ok rest2 => .ok ({ a with Meta := none } :: rest2)

/-! The client read path. The observable effects of one inbound frame are
recorded as an ordered action trace: non-blocking enqueues onto the own
send queue (with their delivery outcome) and publications onto the room
broadcast channel, in program order. -/

inductive ClientAction where
  | enqueuedToSender (b : MarshalledBytes) (delivered : Bool)
  | publishedBroadcast (m : Message)
deriving DecidableEq, Repr

/-- isPublish selects the broadcast publications of a trace. -/
def isPublish : ClientAction → Bool
  | .publishedBroadcast _ => true
  | .enqueuedToSender _ _ => false

/-- sendConfirmation models Client.sendConfirmation: nothing on an empty
tempID, otherwise a CONFIRM envelope carrying the tempID and the id and
timestamp of the authoritative message, enqueued non-blocking. -/
def sendConfirmation (roomCode : String) (sender : User) (tempID : String)
    (authoritative : Message) (freshId : Nat) (now : Int) (q : SendQueue) :
    SendQueue × List ClientAction :=
  if tempID = "" then (q, [])
  else
    let ack := NewMessage freshId now .confirm roomCode sender
      (.confirm tempID authoritative.ID authoritative.Timestamp)
    let res := q.trySend (marshal ack)
    (res.1, [.enqueuedToSender (marshal ack) res.2])

/-- handleText models Client.handleText on a parsed TEXT payload: length
check, authoritative message construction, confirmation, then the direct
send onto the room broadcast channel. -/
def handleText (roomCode : String) (sender : User) (tempID : String)
    (p : TextPayload) (fresh : Nat) (now : Int) (q : SendQueue) :
    SendQueue × List ClientAction :=
  if MaxContentBytes < p.Content.utf8ByteSize then
    let env := mkSendErrorEnvelope roomCode fresh now
      (.custom (NewError errMessageContentTooLong))
    let res := q.trySend (marshal env)
    (res.1, [.enqueuedToSender (marshal env) res.2])
  else
    let msg := NewMessage fresh now .text roomCode sender (.text p)
    let conf := sendConfirmation roomCode sender tempID msg (fresh + 1) now q
    (conf.1, conf.2 ++ [.publishedBroadcast msg])

/-- handleAttachments models Client.handleAttachments on a parsed
ATTACHMENTS payload: count check, description length check, per
attachment key-prefix and file-type validation with meta clearing, then
confirmation and the direct send onto the broadcast channel. -/
def handleAttachments (roomCode : String) (sender : User) (tempID : String)
    (p : AttachmentsPayload) (fresh : Nat) (now : Int) (q : SendQueue) :
    SendQueue × List ClientAction :=
  let count := p.Attachments.length
  if count = 0 ∨ MaxAttachmentsCount < count then
    let env := mkSendErrorEnvelope roomCode fresh now
      (.custom (NewErrorD errAttachmentCountInvalid MaxAttachmentsCount))
    let res := q.trySend (marshal env)
    (res.1, [.enqueuedToSender (marshal env) res.2])
  else if MaxContentBytes < p.Description.utf8ByteSize then
    let env := mkSendErrorEnvelope roomCode fresh now
      (.custom (NewError errMessageContentTooLong))
    let res := q.trySend (marshal env)
    (res.1, [.enqueuedToSender (marshal env) res.2])
  else
    match validateAttachments roomCode p.Attachments with
    | .error e =>
      let env := mkSendErrorEnvelope roomCode fresh now (.custom e)
      let res := q.trySend (marshal env)
      (res.1, [.enqueuedToSender (marshal env) res.2])
    | .ok atts =>
      let msg := NewMessage fresh now .attachments roomCode sender
        (.attachments { Description := p.Description, Attachments := atts })
      let conf := sendConfirmation roomCode sender tempID msg (fresh + 1) now q
      (conf.1, conf.2 ++ [.publishedBroadcast msg])

/-! Token refresh (client.go checkAndRefreshToken, token.go
GenerateToken). Times are integers in milliseconds. -/

def tokenRefreshWindowMs : Int := 2 * 60 * 1000

def roomAccessExpirationMs : Int := 15 * 60 * 1000

/-- GenerateToken models the token.go function symbolically: the issued
token certifies the payload under the secret with the issued-at and
expiry instants the source computes. -/
def GenerateToken (p : TokenPayload) (secret : String) (durationMs : Int) (now : Int) :
    Token :=
  { payload := p, secret := secret, issuedAt := now, expiresAt := now + durationMs }

/-- refreshToken is the token checkAndRefreshToken mints: the payload is
rebuilt from the session identity and the room code, signed with the
room secret, for the room-access duration. -/
def refreshToken (secret : String) (now : Int) (c : ClientState) : Token :=
  GenerateToken { ID := c.usr.ID, Code := c.roomCode, UserType := c.usr.UserType }
    secret roomAccessExpirationMs now

/-- refreshMsg is the TOKEN_UPDATE envelope SendTokenUpdateMessage builds
around the fresh token. -/
def refreshMsg (secret : String) (now : Int) (freshId : Nat) (c : ClientState) : Message :=
  NewMessage freshId now .tokenUpdate c.roomCode SystemUser
    (.tokenUpdate (refreshToken secret now c))

/-- checkAndRefreshToken models the client.go function run once per ping
tick. genFails abstracts the error result of the underlying signing
library call, which the source checks and aborts on. -/
def checkAndRefreshToken (secret : String) (genFails : Bool) (now : Int)
    (freshId : Nat) (c : ClientState) : ClientState :=
  if c.tokenExpiry - tokenRefreshWindowMs < now then
    if genFails then c
    else
      let newExpiry := now + roomAccessExpirationMs
      let res := c.send.trySend (marshal (refreshMsg secret now freshId c))
      if res.2 then { c with send := res.1, tokenExpiry := newExpiry }
      else c
  else c

/-! Producer-side sends on the three room channels, one entry per call
site in the sources, with the channel targeted, whether the call site
runs inside the room event loop goroutine, and whether the send is a
guarded select with a default branch or a direct channel send. -/

inductive RoomChannel where
  | broadcastCh
  | registerCh
  | unregisterCh
deriving DecidableEq, Repr

inductive SendStyle where
  | guardedSelect
  | direct
deriving DecidableEq, Repr

structure ProducerSendSite where
  caller : String
  channel : RoomChannel
  insideRoomLoop : Bool
  style : SendStyle
deriving DecidableEq, Repr

/-- producerSendSites lists every send on a room channel in the sources:
client.go cleanupOnDisconnect, handleText and handleAttachments, and the
room file RegisterClient, handleRegister (the send after a SendInitData
failure and the USER_JOINED publication), handleUnregister (USER_LEFT)
and handleBroadcast (scheduling a slow member). -/
def producerSendSites : List ProducerSendSite :=
  [ { caller := "Client.cleanupOnDisconnect", channel := .unregisterCh,
      insideRoomLoop := false, style := .guardedSelect },
    { caller := "Client.handleText", channel := .broadcastCh,
      insideRoomLoop := false, style := .direct },
    { caller := "Client.handleAttachments", channel := .broadcastCh,
      insideRoomLoop := false, style := .direct },
    { caller := "Room.RegisterClient", channel := .registerCh,
      insideRoomLoop := false, style := .guardedSelect },
    { caller := "Room.handleRegister.initDataFailure", channel := .unregisterCh,
      insideRoomLoop := true, style := .direct },
    { caller := "Room.handleRegister.userJoined", channel := .broadcastCh,
      insideRoomLoop := true, style := .guardedSelect },
    { caller := "Room.handleUnregister.userLeft", channel := .broadcastCh,
      insideRoomLoop := true, style := .guardedSelect },
    { caller := "Room.handleBroadcast.slowMember", channel := .unregisterCh,
      insideRoomLoop := true, style := .guardedSelect } ]

/-- ChanState abstracts the state of a Go channel at the moment of a send. -/
inductive ChanState where
  | ready
  | full
  | closedCh
deriving DecidableEq, Repr

/-- SendOutcome of a Go channel send. -/
inductive SendOutcome where
  | delivered
  | droppedByDefault
  | blocked
  | panics
deriving DecidableEq, Repr

/-- goSendOutcome is the Go semantics of a send: a send on a closed
channel always panics, select or not; a guarded select takes the default
branch instead of blocking; a direct send blocks when the channel cannot
accept. -/
def goSendOutcome : SendStyle → ChanState → SendOutcome
  | _, .closedCh => .panics
  | .direct, .full => .blocked
  | .direct, .ready => .delivered
  | .guardedSelect, .full => .droppedByDefault
  | .guardedSelect, .ready => .delivered

/-! The room event loop consuming register and unregister events, for the
membership invariant. A register event enters through RegisterClient with
a freshly constructed Client, whose queue is the fresh open queue. -/

inductive RoomEvent where
  | register (c : Conn)
  | unregister (c : Conn)
deriving DecidableEq, Repr

/-- stepEvent processes one event: registration first records the fresh
queue the new Client object owns, then runs handleRegister (whose flag
reports the loop blocking forever on its own unregister channel);
unregistration runs handleUnregister. -/
def stepEvent (s : RoomState) (e : RoomEvent) : RoomState × Bool :=
  match e with
  | .register c =>
    handleRegister { s with queues := ainsert s.queues c.connId freshSendQueue } c
  | .unregister c => (handleUnregister s c, false)

/-- runEvents folds the loop over an event list, stopping if the loop
ever blocks. -/
def runEvents : RoomState → List RoomEvent → RoomState × Bool
  | s, [] => (s, false)
  | s, e :: rest =>
    let r := stepEvent s e
    if r.2 then r else runEvents r.1 rest

/-- regConnIds collects the connection identities carried by the register
events of a list. -/
def regConnIds : List RoomEvent → List Nat
  | [] => []
  | .register c :: rest => c.connId :: regConnIds rest
  | .unregister _ :: rest => regConnIds rest

/-- lastRegistered gives the connection carried by the last register
event for a given user id, if any. -/
def lastRegistered : List RoomEvent → String → Option Conn
  | [], _ => none
  | e :: rest, i =>
    match lastRegistered rest i with
    | some c => some c
    | none =>
      match e with
      | .register c => if c.usr.ID = i then some c else none
      | .unregister _ => none

/-! Small lemmas about the association-list operations. -/

theorem alookup_ainsert {α β : Type} [DecidableEq α] (l : List (α × β)) (k : α) (v : β)
    (a : α) : alookup (ainsert l k v) a = if k = a then some v else alookup l a := by
  induction l with
  | nil => by_cases h : k = a <;> simp [ainsert, alookup, h]
  | cons kv rest ih =>
    obtain ⟨k0, v0⟩ := kv
    by_cases h : k0 = k
    · subst h
      by_cases h2 : k0 = a <;> simp [ainsert, alookup, h2]
    · by_cases h2 : k0 = a
      · subst h2
        have hk : ¬ k = k0 := fun hh => h hh.symm
        simp [ainsert, alookup, h, hk]
      · simp [ainsert, alookup, h, h2, ih]

theorem alookup_aerase {α β : Type} [DecidableEq α] (l : List (α × β)) (k : α) (a : α) :
    alookup (aerase l k) a = if k = a then none else alookup l a := by
  induction l with
  | nil => by_cases h : k = a <;> simp [aerase, alookup, h]
  | cons kv rest ih =>
    obtain ⟨k0, v0⟩ := kv
    by_cases h : k0 = k
    · subst h
      by_cases h2 : k0 = a
      · subst h2
        simp [aerase, alookup, ih]
      · simp [aerase, alookup, h2, ih]
    · by_cases h2 : k0 = a
      · subst h2
        have hk : ¬ k = k0 := fun hh => h hh.symm
        simp [aerase, alookup, h, hk]
      · simp [aerase, alookup, h, h2, ih]

theorem aupdate_cons {α β : Type} [DecidableEq α] (k0 : α) (v0 : β)
    (rest : List (α × β)) (k : α) (f : β → β) :
    aupdate ((k0, v0) :: rest) k f
      = (if k0 = k then (k0, f v0) else (k0, v0)) :: aupdate rest k f := by
  by_cases h : k0 = k <;> simp [aupdate, h]

theorem alookup_aupdate {α β : Type} [DecidableEq α] (l : List (α × β)) (k : α)
    (f : β → β) (a : α) :
    alookup (aupdate l k f) a = if k = a then (alookup l a).map f else alookup l a := by
  induction l with
  | nil => by_cases h : k = a <;> simp [aupdate, alookup, h]
  | cons kv rest ih =>
    obtain ⟨k0, v0⟩ := kv
    rw [aupdate_cons]
    by_cases h : k0 = k
    · subst h
      rw [if_pos rfl]
      by_cases h2 : k0 = a
      · subst h2
        simp [alookup]
      · simp [alookup, h2, ih]
    · rw [if_neg h]
      by_cases h2 : k0 = a
      · subst h2
        have hk : ¬ k = k0 := fun hh => h hh.symm
        simp [alookup, hk]
      · simp [alookup, h2, ih]

theorem alookup_mem {α β : Type} [DecidableEq α] {l : List (α × β)} {a : α} {v : β}
    (h : alookup l a = some v) : (a, v) ∈ l := by
  induction l with
  | nil => simp [alookup] at h
  | cons kv rest ih =>
    obtain ⟨k0, v0⟩ := kv
    by_cases h2 : k0 = a
    · subst h2
      simp [alookup] at h
      subst h
      exact List.mem_cons_self _ _
    · simp [alookup, h2] at h
      exact List.mem_cons_of_mem _ (ih h)

theorem mem_ainsert {α β : Type} [DecidableEq α] {l : List (α × β)} {k : α} {v : β}
    {x : α × β} (h : x ∈ ainsert l k v) : x = (k, v) ∨ x ∈ l := by
  induction l with
  | nil =>
    simp [ainsert] at h
    exact Or.inl h
  | cons kv rest ih =>
    obtain ⟨k0, v0⟩ := kv
    by_cases h2 : k0 = k
    · subst h2
      simp [ainsert] at h
      rcases h with h | h
      · exact Or.inl h
      · exact Or.inr (List.mem_cons_of_mem _ h)
    · simp [ainsert, h2] at h
      rcases h with h | h
      · exact Or.inr (by simp [h])
      · rcases ih h with h3 | h3
        · exact Or.inl h3
        · exact Or.inr (List.mem_cons_of_mem _ h3)

theorem mem_aerase {α β : Type} [DecidableEq α] {l : List (α × β)} {k : α}
    {x : α × β} (h : x ∈ aerase l k) : x ∈ l := by
  induction l with
  | nil => simp [aerase] at h
  | cons kv rest ih =>
    obtain ⟨k0, v0⟩ := kv
    by_cases h2 : k0 = k
    · subst h2
      simp [aerase] at h
      exact List.mem_cons_of_mem _ (ih h)
    · simp [aerase, h2] at h
      rcases h with h | h
      · simp [h]
      · exact List.mem_cons_of_mem _ (ih h)

/-! Concrete fixtures used by evaluation theorems and witnesses. -/

def uAlice : User := { ID := "u1", Nickname := "Alice", Avatar := "", UserType := "guest" }

def uBob : User := { ID := "u2", Nickname := "Bob", Avatar := "", UserType := "guest" }

def connAlice : Conn := { usr := uAlice, connId := 1 }

def connBob : Conn := { usr := uBob, connId := 2 }

/-- fullRoom is a room of capacity 1 already holding Alice. -/
def fullRoom : RoomState :=
  { code := "ROOM01", maxClients := 1, jwtSecret := "s",
    members := [("u1", connAlice)], queues := [(1, freshSendQueue)],
    bcast := [], unregScheduleAttempts := [], closeFrames := [],
    timerArmed := false, fresh := 5, clock := 100 }

/-- C6. IsFull returns false whenever the probed id is non-empty and
already a member (re-entry exemption); otherwise it returns true exactly
when maxClients is positive and the member count has reached it. -/
theorem isFull_characterization (s : RoomState) (checkID : String) :
    (checkID ≠ "" → (alookup s.members checkID).isSome → IsFull s checkID = false)
    ∧ (¬ (checkID ≠ "" ∧ (alookup s.members checkID).isSome) →
        (IsFull s checkID = true ↔
          0 < s.maxClients ∧ s.maxClients ≤ (s.members.length : Int))) := by
  constructor
  · intro h1 h2
    simp [IsFull, h1, h2]
  · intro h
    simp [IsFull, h]

/-- Witness for C6 at concrete inputs: the incumbent id u1 is exempt in
the full room, and a fresh id u3 sees the room as full. -/
theorem isFull_characterization_witness :
    IsFull fullRoom "u1" = false ∧ IsFull fullRoom "u3" = true := by
  refine ⟨(isFull_characterization fullRoom "u1").1 (by decide) (by decide), ?_⟩
  exact ((isFull_characterization fullRoom "u3").2 (by decide)).mpr (by decide)

/-- C2, evaluated at the failing input. A full room (capacity 1, holding
Alice) receives a register for Bob, whose fresh queue is empty and open.
The code leaves the members map unchanged and does not install Bob, as
the claim says; but the ERROR envelope it builds carries code 5000
(ErrUnknown, because handleRegister passes a plain fmt.Errorf error to
SendError, not a CustomError), not the room-full code 2104, and the
guarded close then finds the queue non-empty, consumes the just-enqueued
ERROR envelope, and leaves the queue open and empty instead of closed. -/
theorem register_room_full_divergence :
    (handleRegister { fullRoom with queues := ainsert fullRoom.queues 2 freshSendQueue }
        connBob).1.members = fullRoom.members
    ∧ (handleRegister { fullRoom with queues := ainsert fullRoom.queues 2 freshSendQueue }
        connBob).2 = false
    ∧ (mkSendErrorEnvelope "ROOM01" 5 100 (.plain "room is full")).Payload
        = .error 5000 "Internal server error: room is full"
    ∧ SendError freshSendQueue "ROOM01" 5 100 (.plain "room is full")
        = { items := [marshal (mkSendErrorEnvelope "ROOM01" 5 100 (.plain "room is full"))],
            closed := false }
    ∧ alookup (handleRegister { fullRoom with queues := ainsert fullRoom.queues 2 freshSendQueue }
        connBob).1.queues 2 = some { items := [], closed := false } := by
  decide

/-- pendingFrame is some frame sitting in a queue. -/
def pendingFrame : MarshalledBytes :=
  marshal (NewMessage 0 0 .text "ROOM01" uAlice (.text { Content := "hi" }))

/-- clientWithPending is a connection whose open outbound queue holds one
pending frame. -/
def clientWithPending : ClientState :=
  { usr := uAlice, roomCode := "ROOM01", tokenExpiry := 0,
    send := { items := [pendingFrame], closed := false }, closeFrames := [] }

/-- C3, evaluated at the failing input. Kick does write the 4001 close
frame with the reason, and on an already-closed queue the guarded close
leaves it closed without a double-close panic, and an open empty queue is
closed; but on an open queue holding a pending frame the guarded close
consumes that frame and leaves the queue open, so Kick does not always
leave the queue closed. -/
theorem kick_close_divergence :
    (Kick "Session replaced by new connection. Check other tabs." clientWithPending).closeFrames
      = [(4001, "Session replaced by new connection. Check other tabs.")]
    ∧ (Kick "Session replaced by new connection. Check other tabs."
        clientWithPending).send.closed = false
    ∧ (Kick "Session replaced by new connection. Check other tabs."
        clientWithPending).send.items = []
    ∧ (Kick "x" { clientWithPending with send := { items := [], closed := true } }).send
        = { items := [], closed := true }
    ∧ (Kick "x" { clientWithPending with send := { items := [], closed := false } }).send
        = { items := [], closed := true } := by
  decide

/-- siteSatisfiesClaimNine is claim C9 read off one call site: a site
outside the room event loop must be a guarded select, and such a send
must neither panic nor block once the channel is closed. -/
def siteSatisfiesClaimNine (site : ProducerSendSite) : Bool :=
  site.insideRoomLoop
    || (site.style == .guardedSelect
        && !(goSendOutcome site.style .closedCh == .panics)
        && !(goSendOutcome site.style .closedCh == .blocked))

/-- C9 counterexample: the claim fails on the producer call-site table.
The handleText publication onto the broadcast channel is a call site
outside the room event loop whose send is a direct channel send, not a
guarded select. -/
theorem producer_sends_claim_counterexample :
    producerSendSites.all siteSatisfiesClaimNine = false
    ∧ producerSendSites.get? 1
        = some { caller := "Client.handleText", channel := .broadcastCh,
                 insideRoomLoop := false, style := .direct }
    ∧ siteSatisfiesClaimNine
        { caller := "Client.handleText", channel := .broadcastCh,
          insideRoomLoop := false, style := .direct } = false := by
  decide

/-- C9 amended. Every producer-side send onto the register or unregister
channel at a call site outside the room event loop is a guarded select
with a default branch, and a guarded select never blocks on an open
channel; but the broadcast publications of handleText and
handleAttachments are direct channel sends, and no send style prevents a
runtime panic once the target channel has been closed, because a Go send
on a closed channel panics even inside a select. -/
theorem producer_sends_amended :
    producerSendSites.all (fun site =>
        site.insideRoomLoop
          || !(site.channel == .registerCh || site.channel == .unregisterCh)
          || site.style == .guardedSelect) = true
    ∧ producerSendSites.all (fun site =>
        site.insideRoomLoop
          || !(site.channel == .broadcastCh)
          || (site.style == .direct
              && (site.caller == "Client.handleText"
                  || site.caller == "Client.handleAttachments"))) = true
    ∧ goSendOutcome .guardedSelect .ready ≠ .blocked
    ∧ goSendOutcome .guardedSelect .full ≠ .blocked
    ∧ goSendOutcome .guardedSelect .closedCh = .panics
    ∧ goSendOutcome .direct .closedCh = .panics := by
  decide

/-- trySend never changes the closed flag of a queue. -/
theorem trySend_closed (q : SendQueue) (b : MarshalledBytes) :
    (q.trySend b).1.closed = q.closed := by
  unfold SendQueue.trySend
  split_ifs <;> rfl

/-- C8. At a ping tick, nothing happens unless the current time is after
the token expiry minus the two-minute window; on a signing failure the
state is unchanged so the refresh re-fires at the next tick; otherwise a
token of room-access duration signed with the room secret for the
session identity is enqueued as a TOKEN_UPDATE, and the stored expiry is
advanced only when that enqueue succeeds; the refresh never closes the
outbound queue, so the session is not terminated by it. -/
theorem token_refresh_behavior (secret : String) (genFails : Bool) (now : Int)
    (freshId : Nat) (c : ClientState) :
    (¬ (c.tokenExpiry - tokenRefreshWindowMs < now) →
        checkAndRefreshToken secret genFails now freshId c = c)
    ∧ (c.tokenExpiry - tokenRefreshWindowMs < now → genFails = true →
        checkAndRefreshToken secret genFails now freshId c = c)
    ∧ (c.tokenExpiry - tokenRefreshWindowMs < now → genFails = false →
        (refreshToken secret now c).expiresAt - (refreshToken secret now c).issuedAt
            = roomAccessExpirationMs
        ∧ (refreshToken secret now c).secret = secret
        ∧ (refreshToken secret now c).payload
            = { ID := c.usr.ID, Code := c.roomCode, UserType := c.usr.UserType }
        ∧ (refreshMsg secret now freshId c).MsgType = .tokenUpdate
        ∧ ((c.send.trySend (marshal (refreshMsg secret now freshId c))).2 = true →
            checkAndRefreshToken secret genFails now freshId c
              = { c with
                  send := (c.send.trySend (marshal (refreshMsg secret now freshId c))).1,
                  tokenExpiry := now + roomAccessExpirationMs })
        ∧ ((c.send.trySend (marshal (refreshMsg secret now freshId c))).2 = false →
            checkAndRefreshToken secret genFails now freshId c = c))
    ∧ (checkAndRefreshToken secret genFails now freshId c).send.closed = c.send.closed := by
  refine ⟨?_, ?_, ?_, ?_⟩
  · intro h
    simp [checkAndRefreshToken, h]
  · intro h hg
    simp [checkAndRefreshToken, h, hg]
  · intro h hg
    refine ⟨by simp [refreshToken, GenerateToken], rfl, rfl, rfl, ?_, ?_⟩
    · intro hok
      simp [checkAndRefreshToken, h, hg, hok]
    · intro hfail
      simp [checkAndRefreshToken, h, hg, hfail]
  · by_cases h : c.tokenExpiry - tokenRefreshWindowMs < now
    · by_cases hg : genFails
      · simp [checkAndRefreshToken, h, hg]
      · by_cases hok : (c.send.trySend (marshal (refreshMsg secret now freshId c))).2
        · simp [checkAndRefreshToken, h, hg, hok, trySend_closed]
        · simp [checkAndRefreshToken, h, hg, hok]
    · simp [checkAndRefreshToken, h]

/-- Witness for C8 at a concrete input: expiry 0, current time 0 (inside
the refresh window), signing succeeds, the queue accepts the frame, and
the expiry advances to the fifteen-minute mark. -/
theorem token_refresh_behavior_witness :
    checkAndRefreshToken "sek" false 0 9 clientWithPending
      = { clientWithPending with
          send := (clientWithPending.send.trySend
            (marshal (refreshMsg "sek" 0 9 clientWithPending))).1,
          tokenExpiry := 0 + roomAccessExpirationMs } :=
  (((token_refresh_behavior "sek" false 0 9 clientWithPending).2.2.1
    (by decide) rfl).2.2.2.2.1) (by decide)

/-- C4. For an accepted inbound TEXT or ATTACHMENTS frame with a
non-empty tempID, the action trace of the reader is exactly the CONFIRM
enqueue onto the own queue followed by the publication onto the room
broadcast channel: the CONFIRM precedes the publication in program
order, its payload carries the tempID together with the id and timestamp
of the freshly constructed authoritative message, and the published
message carries that same id. -/
theorem confirm_before_publish (roomCode : String) (sender : User) (tempID : String)
    (fresh : Nat) (now : Int) (q : SendQueue) (htmp : tempID ≠ "") :
    (∀ p : TextPayload, p.Content.utf8ByteSize ≤ MaxContentBytes →
      ∃ ack deliv msg,
        (handleText roomCode sender tempID p fresh now q).2
          = [.enqueuedToSender (marshal ack) deliv, .publishedBroadcast msg]
        ∧ ack.MsgType = .confirm
        ∧ ack.Payload = .confirm tempID msg.ID msg.Timestamp)
    ∧ (∀ p : AttachmentsPayload,
        1 ≤ p.Attachments.length → p.Attachments.length ≤ MaxAttachmentsCount →
        p.Description.utf8ByteSize ≤ MaxContentBytes →
        ∀ atts, validateAttachments roomCode p.Attachments = .ok atts →
        ∃ ack deliv msg,
          (handleAttachments roomCode sender tempID p fresh now q).2
            = [.enqueuedToSender (marshal ack) deliv, .publishedBroadcast msg]
          ∧ ack.MsgType = .confirm
          ∧ ack.Payload = .confirm tempID msg.ID msg.Timestamp) := by
  constructor
  · intro p hlen
    have hnot : ¬ (MaxContentBytes < p.Content.utf8ByteSize) := Nat.not_lt.mpr hlen
    simp only [handleText, if_neg hnot, sendConfirmation, if_neg htmp]
    exact ⟨_, _, _, rfl, rfl, rfl⟩
  · intro p h1 h2 hdesc atts hva
    have hcount : ¬ (p.Attachments.length = 0 ∨ MaxAttachmentsCount < p.Attachments.length) := by
      omega
    have hnotd : ¬ (MaxContentBytes < p.Description.utf8ByteSize) := Nat.not_lt.mpr hdesc
    simp only [handleAttachments, if_neg hcount, if_neg hnotd, hva, sendConfirmation,
      if_neg htmp]
    exact ⟨_, _, _, rfl, rfl, rfl⟩

/-- demoAttachment is a well-formed attachment of room ROOM01 carrying
client-supplied meta. -/
def demoAttachment : Attachment :=
  { Key := "ROOM01/abc.jpg", Name := "abc.jpg", MimeType := "image/jpeg",
    Size := 10, Meta := some "m" }

/-- demoAttachPayload wraps demoAttachment. -/
def demoAttachPayload : AttachmentsPayload :=
  { Description := "pic", Attachments := [demoAttachment] }

/-- Witness for C4 at concrete inputs: a two-byte TEXT frame and a
single-attachment ATTACHMENTS frame, both with tempID t-7. -/
theorem confirm_before_publish_witness :
    (∃ ack deliv msg,
      (handleText "ROOM01" uAlice "t-7" { Content := "hi" } 0 0 freshSendQueue).2
        = [.enqueuedToSender (marshal ack) deliv, .publishedBroadcast msg]
      ∧ ack.MsgType = .confirm
      ∧ ack.Payload = .confirm "t-7" msg.ID msg.Timestamp)
    ∧ (∃ ack deliv msg,
      (handleAttachments "ROOM01" uAlice "t-7" demoAttachPayload 0 0 freshSendQueue).2
        = [.enqueuedToSender (marshal ack) deliv, .publishedBroadcast msg]
      ∧ ack.MsgType = .confirm
      ∧ ack.Payload = .confirm "t-7" msg.ID msg.Timestamp) :=
  ⟨(confirm_before_publish "ROOM01" uAlice "t-7" 0 0 freshSendQueue (by decide)).1
      { Content := "hi" } (by decide),
   (confirm_before_publish "ROOM01" uAlice "t-7" 0 0 freshSendQueue (by decide)).2
      demoAttachPayload (by decide) (by decide) (by decide)
      [{ demoAttachment with Meta := none }] rfl⟩

/-- attachmentWireValid reads off the validation the spec states for one
attachment: the key begins with the room prefix, the lower-cased MIME is
one of the allowed image types, and it equals the MIME implied by the
filename extension. -/
def attachmentWireValid (roomCode : String) (a : Attachment) : Prop :=
  goHasPrefix a.Key (expectedKeyPrefix roomCode) = true
  ∧ asciiLower a.MimeType ∈ AllowedMIMETypes
  ∧ ExtToMIME (asciiLower (filepathExt a.Name)) = some (asciiLower a.MimeType)

instance (roomCode : String) (a : Attachment) : Decidable (attachmentWireValid roomCode a) := by
  unfold attachmentWireValid
  infer_instance

/-- An extension in the MIME table is never empty or a bare dot. -/
theorem extToMIME_some_not_short {ext mm : String} (h : ExtToMIME ext = some mm) :
    ¬ (ext = "" ∨ ext.length < 2) := by
  unfold ExtToMIME at h
  split_ifs at h with h1 h2 h3 h4 h5
  · subst h1; decide
  · subst h2; decide
  · subst h3; decide
  · subst h4; decide
  · subst h5; decide

/-- ValidateFileType passes exactly when the lower-cased MIME is allowed
and matches the MIME the extension table implies for the file name. -/
theorem validateFileType_none_iff (n m : String) :
    ValidateFileType n m = none ↔
      (asciiLower m ∈ AllowedMIMETypes
       ∧ ExtToMIME (asciiLower (filepathExt n)) = some (asciiLower m)) := by
  unfold ValidateFileType
  by_cases h1 : asciiLower m ∈ AllowedMIMETypes
  · rw [if_neg (by simpa using h1)]
    by_cases h2 : asciiLower (filepathExt n) = "" ∨ (asciiLower (filepathExt n)).length < 2
    · rw [if_pos h2]
      constructor
      · intro hx; cases hx
      · intro hx
        exact absurd h2 (extToMIME_some_not_short hx.2)
    · rw [if_neg h2]
      cases heq : ExtToMIME (asciiLower (filepathExt n)) with
      | none => simp [h1, heq]
      | some expected =>
        by_cases h3 : expected = asciiLower m
        · subst h3
          simp [h1, heq]
        · simp [h1, heq, h3]
  · simp [h1]

/-- The attachment loop succeeds exactly when every attachment passes the
key-prefix and file-type validation. -/
theorem validateAttachments_ok_iff (rc : String) (atts : List Attachment) :
    (∃ out, validateAttachments rc atts = .ok out) ↔
      ∀ a ∈ atts, attachmentWireValid rc a := by
  induction atts with
  | nil => simp [validateAttachments]
  | cons a rest ih =>
    unfold validateAttachments
    by_cases hp : goHasPrefix a.Key (expectedKeyPrefix rc) = true
    · rw [if_neg (by simpa using hp)]
      cases hv : ValidateFileType a.Name a.MimeType with
      | some e =>
        have hnv : ¬ attachmentWireValid rc a := by
          intro hx
          have := (validateFileType_none_iff a.Name a.MimeType).mpr ⟨hx.2.1, hx.2.2⟩
          rw [hv] at this
          cases this
        constructor
        · intro hx
          obtain ⟨out, hout⟩ := hx
          cases hout
        · intro hx
          exact absurd (hx a (List.mem_cons_self _ _)) hnv
      | none =>
        have hva : attachmentWireValid rc a :=
          ⟨hp, ((validateFileType_none_iff a.Name a.MimeType).mp hv)⟩
        cases hr : validateAttachments rc rest with
        | error e =>
          constructor
          · intro hx
            obtain ⟨out, hout⟩ := hx
            cases hout
          · intro hx
            have : ∀ b ∈ rest, attachmentWireValid rc b :=
              fun b hb => hx b (List.mem_cons_of_mem _ hb)
            obtain ⟨out, hout⟩ := ih.mpr this
            rw [hr] at hout
            cases hout
        | ok out =>
          constructor
          · intro _
            intro b hb
            rcases List.mem_cons.mp hb with hb | hb
            · subst hb; exact hva
            · have : ∃ o, validateAttachments rc rest = .ok o := ⟨out, hr⟩
              exact ih.mp this b hb
          · intro _
            exact ⟨_, rfl⟩
    · rw [if_pos (by simpa using hp)]
      constructor
      · intro hx
        obtain ⟨out, hout⟩ := hx
        cases hout
      · intro hx
        exact absurd ((hx a (List.mem_cons_self _ _)).1) hp

/-- When every attachment before the first bad-prefix one is fully valid,
the loop aborts with the attachment-key-invalid error. -/
theorem validateAttachments_first_prefix_error (rc : String) (pre : List Attachment)
    (bad : Attachment) (rest : List Attachment)
    (hpre : ∀ a ∈ pre, attachmentWireValid rc a)
    (hbad : goHasPrefix bad.Key (expectedKeyPrefix rc) = false) :
    validateAttachments rc (pre ++ bad :: rest)
      = .error (NewError errAttachmentKeyInvalid) := by
  induction pre with
  | nil =>
    unfold validateAttachments
    rw [List.nil_append]
    simp [hbad]
  | cons a pre2 ih =>
    have ha := hpre a (List.mem_cons_self _ _)
    have hvn : ValidateFileType a.Name a.MimeType = none :=
      (validateFileType_none_iff a.Name a.MimeType).mpr ⟨ha.2.1, ha.2.2⟩
    have ih2 := ih (fun b hb => hpre b (List.mem_cons_of_mem _ hb))
    rw [List.cons_append]
    unfold validateAttachments
    rw [if_neg (by simpa using ha.1), hvn, ih2]

/-- C7. handleAttachments publishes onto the broadcast channel exactly
when the attachment count is between 1 and 3, the description is at most
5000 bytes, and every attachment has the room key prefix and an allowed
MIME type agreeing with its filename extension; and when the first
failing attachment fails on the key prefix, the trace is exactly one
ERROR enqueue to the sender carrying the attachment-key-invalid error
(code 2204) and nothing is published. -/
theorem attachments_validation_gate (roomCode : String) (sender : User) (tempID : String)
    (p : AttachmentsPayload) (fresh : Nat) (now : Int) (q : SendQueue) :
    ((handleAttachments roomCode sender tempID p fresh now q).2.any isPublish = true
      ↔ (1 ≤ p.Attachments.length ∧ p.Attachments.length ≤ MaxAttachmentsCount
         ∧ p.Description.utf8ByteSize ≤ MaxContentBytes
         ∧ ∀ a ∈ p.Attachments, attachmentWireValid roomCode a))
    ∧ (∀ pre bad rest, p.Attachments = pre ++ bad :: rest →
        (∀ a ∈ pre, attachmentWireValid roomCode a) →
        goHasPrefix bad.Key (expectedKeyPrefix roomCode) = false →
        1 ≤ p.Attachments.length → p.Attachments.length ≤ MaxAttachmentsCount →
        p.Description.utf8ByteSize ≤ MaxContentBytes →
        (NewError errAttachmentKeyInvalid).Code = errAttachmentKeyInvalid
        ∧ ∃ deliv,
            (handleAttachments roomCode sender tempID p fresh now q).2
              = [.enqueuedToSender (marshal (mkSendErrorEnvelope roomCode fresh now
                  (.custom (NewError errAttachmentKeyInvalid)))) deliv]) := by
  constructor
  · unfold handleAttachments
    by_cases hc : (p.Attachments.length = 0 ∨ MaxAttachmentsCount < p.Attachments.length)
    · rw [if_pos hc]
      apply iff_of_false
      · simp [isPublish]
      · rintro ⟨h1, h2, -, -⟩
        simp only [MaxAttachmentsCount] at hc h2
        omega
    · rw [if_neg hc]
      by_cases hd : MaxContentBytes < p.Description.utf8ByteSize
      · rw [if_pos hd]
        apply iff_of_false
        · simp [isPublish]
        · rintro ⟨-, -, h3, -⟩
          omega
      · rw [if_neg hd]
        cases hva : validateAttachments roomCode p.Attachments with
        | error e =>
          apply iff_of_false
          · simp [isPublish]
          · rintro ⟨-, -, -, h4⟩
            obtain ⟨out, hout⟩ := (validateAttachments_ok_iff roomCode p.Attachments).mpr h4
            rw [hva] at hout
            cases hout
        | ok out =>
          apply iff_of_true
          · simp [sendConfirmation, isPublish]
          · refine ⟨by omega, by omega, Nat.not_lt.mp hd,
              (validateAttachments_ok_iff roomCode p.Attachments).mp ⟨out, hva⟩⟩
  · intro pre bad rest heq hpre hbad h1 h2 h3
    refine ⟨rfl, ?_⟩
    have hc : ¬ (p.Attachments.length = 0 ∨ MaxAttachmentsCount < p.Attachments.length) := by
      simp only [MaxAttachmentsCount] at h2 ⊢
      omega
    have hd : ¬ (MaxContentBytes < p.Description.utf8ByteSize) := Nat.not_lt.mpr h3
    have hva : validateAttachments roomCode p.Attachments
        = .error (NewError errAttachmentKeyInvalid) := by
      rw [heq]
      exact validateAttachments_first_prefix_error roomCode pre bad rest hpre hbad
    unfold handleAttachments
    rw [if_neg hc, if_neg hd, hva]
    exact ⟨_, rfl⟩

/-- badKeyAttachment carries a file key of another room. -/
def badKeyAttachment : Attachment :=
  { Key := "otherRoom/abc.jpg", Name := "abc.jpg", MimeType := "image/jpeg",
    Size := 10, Meta := none }

/-- s5Payload is the S5 scenario payload: one attachment with a wrong
room prefix. -/
def s5Payload : AttachmentsPayload :=
  { Description := "", Attachments := [badKeyAttachment] }

/-- Witness for C7 at the S5 scenario: the sender of the bad-prefix
attachment in ROOM01 gets exactly one ERROR enqueue carrying code 2204
and no broadcast. -/
theorem attachments_validation_gate_witness :
    (NewError errAttachmentKeyInvalid).Code = errAttachmentKeyInvalid
    ∧ ∃ deliv,
        (handleAttachments "ROOM01" uAlice "t" s5Payload 0 0 freshSendQueue).2
          = [.enqueuedToSender (marshal (mkSendErrorEnvelope "ROOM01" 0 0
              (.custom (NewError errAttachmentKeyInvalid)))) deliv] :=
  (attachments_validation_gate "ROOM01" uAlice "t" s5Payload 0 0 freshSendQueue).2
    [] badKeyAttachment [] rfl (by simp) (by decide) (by decide) (by decide) (by decide)

/-- AttachmentMetaEquiv relates two attachments that agree on everything
except possibly their client-supplied meta field. -/
def AttachmentMetaEquiv (a b : Attachment) : Prop :=
  a.Key = b.Key ∧ a.Name = b.Name ∧ a.MimeType = b.MimeType ∧ a.Size = b.Size

/-- The validation loop never reads the meta field: it returns equal
results on meta-equivalent attachment lists. -/
theorem validateAttachments_congr (rc : String) {l1 l2 : List Attachment}
    (h : List.Forall₂ AttachmentMetaEquiv l1 l2) :
    validateAttachments rc l1 = validateAttachments rc l2 := by
  induction h with
  | nil => rfl
  | cons ha htail ih =>
    obtain ⟨hk, hn, hmt, hs⟩ := ha
    unfold validateAttachments
    rw [hk, hn, hmt, hs, ih]

/-- Every attachment the validation loop returns has its meta cleared. -/
theorem validateAttachments_ok_meta_none (rc : String) :
    ∀ (l out : List Attachment), validateAttachments rc l = .ok out →
    ∀ a ∈ out, a.Meta = none := by
  intro l
  induction l with
  | nil =>
    intro out h
    simp [validateAttachments] at h
    subst h
    simp
  | cons a rest ih =>
    intro out h
    unfold validateAttachments at h
    by_cases hp : goHasPrefix a.Key (expectedKeyPrefix rc) = true
    · rw [if_neg (by simpa using hp)] at h
      cases hv : ValidateFileType a.Name a.MimeType with
      | some e =>
        rw [hv] at h
        cases h
      | none =>
        rw [hv] at h
        cases hr : validateAttachments rc rest with
        | error e =>
          rw [hr] at h
          cases h
        | ok rest2 =>
          rw [hr] at h
          cases h
          intro x hx
          rcases List.mem_cons.mp hx with hx | hx
          · subst hx
            rfl
          · exact ih rest2 hr x hx
    · rw [if_pos (by simpa using hp)] at h
      cases h

/-- C10. Two inbound ATTACHMENTS payloads that differ only in the meta
fields of their attachments produce identical results (queue effects and
the full action trace, hence identical broadcast payloads); moreover
every published attachments payload has all meta fields cleared, so
recipients never observe client-supplied metadata. -/
theorem attachments_meta_noninterference (roomCode : String) (sender : User)
    (tempID : String) (fresh : Nat) (now : Int) (q : SendQueue)
    (p1 p2 : AttachmentsPayload) (hdesc : p1.Description = p2.Description)
    (hatts : List.Forall₂ AttachmentMetaEquiv p1.Attachments p2.Attachments) :
    handleAttachments roomCode sender tempID p1 fresh now q
      = handleAttachments roomCode sender tempID p2 fresh now q
    ∧ ∀ act ∈ (handleAttachments roomCode sender tempID p1 fresh now q).2,
        ∀ m pl, act = .publishedBroadcast m → m.Payload = .attachments pl →
        ∀ a ∈ pl.Attachments, a.Meta = none := by
  constructor
  · unfold handleAttachments
    rw [hdesc, List.Forall₂.length_eq hatts, validateAttachments_congr roomCode hatts]
  · unfold handleAttachments
    by_cases hc : (p1.Attachments.length = 0 ∨ MaxAttachmentsCount < p1.Attachments.length)
    · rw [if_pos hc]
      intro act hact m pl hm
      simp at hact
      subst hact
      intro hpl
      cases hm
    · rw [if_neg hc]
      by_cases hd : MaxContentBytes < p1.Description.utf8ByteSize
      · rw [if_pos hd]
        intro act hact m pl hm
        simp at hact
        subst hact
        intro hpl
        cases hm
      · rw [if_neg hd]
        cases hva : validateAttachments roomCode p1.Attachments with
        | error e =>
          intro act hact m pl hm
          simp at hact
          subst hact
          intro hpl
          cases hm
        | ok out =>
          intro act hact m pl hm hpl
          rcases List.mem_append.mp hact with hact | hact
          · unfold sendConfirmation at hact
            by_cases htmp : tempID = ""
            · rw [if_pos htmp] at hact
              simp at hact
            · rw [if_neg htmp] at hact
              simp at hact
              subst hact
              cases hm
          · simp at hact
            subst hact
            cases hm
            cases hpl
            exact validateAttachments_ok_meta_none roomCode p1.Attachments out hva

/-- Witness for C10 at concrete inputs: the same payload with and without
client meta yields identical handler results. -/
theorem attachments_meta_noninterference_witness :
    handleAttachments "ROOM01" uAlice "t-7" demoAttachPayload 0 0 freshSendQueue
      = handleAttachments "ROOM01" uAlice "t-7"
          { demoAttachPayload with
            Attachments := [{ demoAttachment with Meta := some "other" }] }
          0 0 freshSendQueue :=
  (attachments_meta_noninterference "ROOM01" uAlice "t-7" 0 0 freshSendQueue
    demoAttachPayload
    { demoAttachPayload with
      Attachments := [{ demoAttachment with Meta := some "other" }] }
    rfl (List.Forall₂.cons ⟨rfl, rfl, rfl, rfl⟩ List.Forall₂.nil)).1

/-- The fan-out never touches a queue key that belongs to none of the
members it visits. -/
theorem fanout_lookup_notin (bytes : MarshalledBytes) (sid : String) :
    ∀ (ms : List (String × Conn)) (qs : List (Nat × SendQueue)) (att : List Conn) (k : Nat),
    (∀ kv ∈ ms, kv.2.connId ≠ k) →
    alookup (fanout bytes sid ms qs att).1 k = alookup qs k := by
  intro ms
  induction ms with
  | nil => intro qs att k _; rfl
  | cons kv0 rest ih =>
    intro qs att k h
    obtain ⟨s0, cl⟩ := kv0
    have hcl : cl.connId ≠ k := h (s0, cl) (List.mem_cons_self _ _)
    have hrest : ∀ kv ∈ rest, kv.2.connId ≠ k :=
      fun kv hkv => h kv (List.mem_cons_of_mem _ hkv)
    by_cases hid : cl.usr.ID ≠ sid
    · by_cases hok : (((alookup qs cl.connId).getD freshSendQueue).trySend bytes).2 = true
      · show alookup (fanout bytes sid ((s0, cl) :: rest) qs att).1 k = alookup qs k
        unfold fanout
        rw [if_pos hid, if_pos hok, ih _ _ _ hrest, alookup_ainsert, if_neg hcl]
      · unfold fanout
        rw [if_pos hid, if_neg hok, ih _ _ _ hrest]
    · unfold fanout
      rw [if_neg hid, ih _ _ _ hrest]

/-- The attempts list of the fan-out only grows. -/
theorem fanout_att_mono (bytes : MarshalledBytes) (sid : String) :
    ∀ (ms : List (String × Conn)) (qs : List (Nat × SendQueue)) (att : List Conn)
      (x : Conn), x ∈ att → x ∈ (fanout bytes sid ms qs att).2 := by
  intro ms
  induction ms with
  | nil => intro qs att x hx; exact hx
  | cons kv0 rest ih =>
    intro qs att x hx
    obtain ⟨s0, cl⟩ := kv0
    by_cases hid : cl.usr.ID ≠ sid
    · by_cases hok : (((alookup qs cl.connId).getD freshSendQueue).trySend bytes).2 = true
      · unfold fanout
        rw [if_pos hid, if_pos hok]
        exact ih _ _ _ hx
      · unfold fanout
        rw [if_pos hid, if_neg hok]
        exact ih _ _ _ (List.mem_append_left _ hx)
    · unfold fanout
      rw [if_neg hid]
      exact ih _ _ _ hx

/-- Per-member characterization of the fan-out, under distinct connection
identities: the sender member is untouched; a non-sender member whose
non-blocking enqueue succeeds holds exactly the extended queue; one whose
enqueue fails keeps its queue and appears in the attempts list. -/
theorem fanout_member_char (bytes : MarshalledBytes) (sid : String) :
    ∀ (ms : List (String × Conn)) (qs : List (Nat × SendQueue)) (att : List Conn),
    (ms.map (fun kv => kv.2.connId)).Nodup →
    ∀ kv ∈ ms,
      (kv.2.usr.ID = sid →
        alookup (fanout bytes sid ms qs att).1 kv.2.connId = alookup qs kv.2.connId)
      ∧ (kv.2.usr.ID ≠ sid →
          (((alookup qs kv.2.connId).getD freshSendQueue).trySend bytes).2 = true →
          alookup (fanout bytes sid ms qs att).1 kv.2.connId
            = some (((alookup qs kv.2.connId).getD freshSendQueue).trySend bytes).1)
      ∧ (kv.2.usr.ID ≠ sid →
          (((alookup qs kv.2.connId).getD freshSendQueue).trySend bytes).2 = false →
          alookup (fanout bytes sid ms qs att).1 kv.2.connId = alookup qs kv.2.connId
          ∧ kv.2 ∈ (fanout bytes sid ms qs att).2) := by
  intro ms
  induction ms with
  | nil => intro qs att _ kv hkv; cases hkv
  | cons kv0 rest ih =>
    intro qs att hnd kv hkv
    obtain ⟨s0, cl⟩ := kv0
    rw [List.map_cons, List.nodup_cons] at hnd
    obtain ⟨hni, hnr⟩ := hnd
    rcases List.mem_cons.mp hkv with hkv | hkv
    · subst hkv
      have hrestne : ∀ kv2 ∈ rest, kv2.2.connId ≠ cl.connId := by
        intro kv2 hkv2 hc
        exact hni (hc ▸ List.mem_map_of_mem _ hkv2)
      by_cases hid : cl.usr.ID ≠ sid
      · by_cases hok : (((alookup qs cl.connId).getD freshSendQueue).trySend bytes).2 = true
        · refine ⟨fun h => absurd h hid, fun _ _ => ?_, fun _ hfail => ?_⟩
          · unfold fanout
            rw [if_pos hid, if_pos hok,
              fanout_lookup_notin bytes sid rest _ att cl.connId hrestne,
              alookup_ainsert, if_pos rfl]
          · rw [hok] at hfail
            cases hfail
        · have hfail : (((alookup qs cl.connId).getD freshSendQueue).trySend bytes).2 = false :=
            Bool.not_eq_true _ ▸ eq_false_of_ne_true hok
          refine ⟨fun h => absurd h hid, fun _ htrue => ?_, fun _ _ => ?_⟩
          · rw [htrue] at hfail
            cases hfail
          · constructor
            · unfold fanout
              rw [if_pos hid, if_neg hok,
                fanout_lookup_notin bytes sid rest _ _ cl.connId hrestne]
            · unfold fanout
              rw [if_pos hid, if_neg hok]
              exact fanout_att_mono bytes sid rest qs (att ++ [cl]) cl
                (List.mem_append_right _ (List.mem_cons_self _ _))
      · have hid2 : cl.usr.ID = sid := not_not.mp hid
        refine ⟨fun _ => ?_, fun h _ => absurd hid2 h, fun h _ => absurd hid2 h⟩
        unfold fanout
        rw [if_neg hid, fanout_lookup_notin bytes sid rest _ _ cl.connId hrestne]
    · have hne : cl.connId ≠ kv.2.connId := by
        intro hc
        exact hni (hc ▸ List.mem_map_of_mem _ hkv)
      by_cases hid : cl.usr.ID ≠ sid
      · by_cases hok : (((alookup qs cl.connId).getD freshSendQueue).trySend bytes).2 = true
        · have heq : alookup (ainsert qs cl.connId
              (((alookup qs cl.connId).getD freshSendQueue).trySend bytes).1) kv.2.connId
              = alookup qs kv.2.connId := by
            rw [alookup_ainsert, if_neg hne]
          have IH := ih (ainsert qs cl.connId
            (((alookup qs cl.connId).getD freshSendQueue).trySend bytes).1) att hnr kv hkv
          rw [heq] at IH
          unfold fanout
          rw [if_pos hid, if_pos hok]
          exact IH
        · have IH := ih qs (att ++ [cl]) hnr kv hkv
          unfold fanout
          rw [if_pos hid, if_neg hok]
          exact IH
      · have IH := ih qs att hnr kv hkv
        unfold fanout
        rw [if_neg hid]
        exact IH

/-- C5. handleBroadcast drops an ERROR message entirely (the state is
unchanged and nothing is enqueued anywhere); any other message is
marshalled once and that one buffer is enqueued non-blocking onto the
queue of every member whose user id differs from the sender id, onto no
member whose user id equals it, and a member whose enqueue fails keeps
its queue and has the non-blocking unregister send attempted for it
(recorded in the attempts list; the unregister channel is unbuffered and
its only receiver is the loop running this code). -/
theorem broadcast_fanout_spec (s : RoomState) (m : Message)
    (hnd : (s.members.map (fun kv => kv.2.connId)).Nodup) :
    (m.MsgType = .error → handleBroadcast s m = s)
    ∧ (m.MsgType ≠ .error →
        (handleBroadcast s m).members = s.members
        ∧ (handleBroadcast s m).bcast = s.bcast
        ∧ ∀ kv ∈ s.members,
            (kv.2.usr.ID = m.Sender.ID →
              alookup (handleBroadcast s m).queues kv.2.connId
                = alookup s.queues kv.2.connId)
            ∧ (kv.2.usr.ID ≠ m.Sender.ID →
                (((alookup s.queues kv.2.connId).getD freshSendQueue).trySend
                    (marshal m)).2 = true →
                alookup (handleBroadcast s m).queues kv.2.connId
                  = some (((alookup s.queues kv.2.connId).getD freshSendQueue).trySend
                      (marshal m)).1)
            ∧ (kv.2.usr.ID ≠ m.Sender.ID →
                (((alookup s.queues kv.2.connId).getD freshSendQueue).trySend
                    (marshal m)).2 = false →
                alookup (handleBroadcast s m).queues kv.2.connId
                  = alookup s.queues kv.2.connId
                ∧ kv.2 ∈ (handleBroadcast s m).unregScheduleAttempts)) := by
  constructor
  · intro he
    simp [handleBroadcast, he]
  · intro hne
    have hb : handleBroadcast s m
        = { s with
            queues := (fanout (marshal m) m.Sender.ID s.members s.queues
              s.unregScheduleAttempts).1,
            unregScheduleAttempts := (fanout (marshal m) m.Sender.ID s.members s.queues
              s.unregScheduleAttempts).2 } := by
      simp [handleBroadcast, hne]
    rw [hb]
    exact ⟨rfl, rfl, fun kv hkv =>
      fanout_member_char (marshal m) m.Sender.ID s.members s.queues
        s.unregScheduleAttempts hnd kv hkv⟩

/-- twoMemberRoom holds Alice and Bob with fresh queues. -/
def twoMemberRoom : RoomState :=
  { code := "ROOM01", maxClients := 2, jwtSecret := "s",
    members := [("u1", connAlice), ("u2", connBob)],
    queues := [(1, freshSendQueue), (2, freshSendQueue)],
    bcast := [], unregScheduleAttempts := [], closeFrames := [],
    timerArmed := false, fresh := 3, clock := 9 }

/-- demoTextMsg is a TEXT message authored by Alice. -/
def demoTextMsg : Message :=
  NewMessage 7 5 .text "ROOM01" uAlice (.text { Content := "hi" })

/-- Witness for C5 at a concrete input: broadcasting a TEXT message from
Alice in the two-member room leaves the sender queue alone and appends
the single marshalled buffer to the non-sender queue. -/
theorem broadcast_fanout_spec_witness :
    alookup (handleBroadcast twoMemberRoom demoTextMsg).queues 1
      = alookup twoMemberRoom.queues 1
    ∧ alookup (handleBroadcast twoMemberRoom demoTextMsg).queues 2
      = some (((alookup twoMemberRoom.queues 2).getD freshSendQueue).trySend
          (marshal demoTextMsg)).1 := by
  have h := (broadcast_fanout_spec twoMemberRoom demoTextMsg (by decide)).2 (by decide)
  exact ⟨(h.2.2 ("u1", connAlice) (by decide)).1 (by decide),
    (h.2.2 ("u2", connBob) (by decide)).2.1 (by decide) (by decide)⟩

/-- A trySend on the fresh queue always succeeds. -/
theorem trySend_fresh (b : MarshalledBytes) :
    freshSendQueue.trySend b = ({ items := [b], closed := false }, true) := rfl

/-- A stale or unknown unregister leaves the entire room state unchanged:
no member removed, no queue closed, no USER_LEFT broadcast. -/
theorem handleUnregister_stale (s : RoomState) (c : Conn) (cur : Conn)
    (hcur : alookup s.members c.usr.ID = some cur) (hne : cur.connId ≠ c.connId) :
    handleUnregister s c = s := by
  unfold handleUnregister
  rw [hcur]
  simp [hne]

/-- handleUnregister either leaves the members map alone or deletes
exactly the entry of the unregistering user id. -/
theorem handleUnregister_members (s : RoomState) (c : Conn) :
    (handleUnregister s c).members = s.members
    ∨ (handleUnregister s c).members = aerase s.members c.usr.ID := by
  cases hm : alookup s.members c.usr.ID with
  | none =>
    left
    simp only [handleUnregister, hm]
  | some cur =>
    by_cases he : cur.connId = c.connId
    · right
      simp only [handleUnregister, hm, if_pos he]
      unfold pushBroadcast
      split_ifs <;> rfl
    · left
      simp only [handleUnregister, hm, if_neg he]

/-- pushBroadcast never changes the members map. -/
theorem pushBroadcast_members (s : RoomState) (m : Message) :
    (pushBroadcast s m).members = s.members := by
  unfold pushBroadcast
  split_ifs <;> rfl

/-- handleRegister characterized for a registration whose connection owns
the fresh queue and differs from any incumbent connection of the same
user id (always the case for a freshly constructed Client): the loop
never blocks, and the members map is either unchanged (capacity
rejection, only possible when the id was absent) or updated at exactly
the registering id. -/
theorem handleRegister_char (s : RoomState) (c : Conn)
    (hq : alookup s.queues c.connId = some freshSendQueue)
    (hkick : ∀ old, alookup s.members c.usr.ID = some old → old.connId ≠ c.connId) :
    (handleRegister s c).2 = false
    ∧ (((handleRegister s c).1.members = s.members ∧ alookup s.members c.usr.ID = none)
        ∨ (handleRegister s c).1.members = ainsert s.members c.usr.ID c) := by
  cases hm : alookup s.members c.usr.ID with
  | none =>
    by_cases hfull : (0 < s.maxClients ∧ s.maxClients ≤ (s.members.length : Int))
    · have hcond : ((none : Option Conn).isNone = true
          ∧ 0 < s.maxClients ∧ s.maxClients ≤ (s.members.length : Int)) := ⟨rfl, hfull⟩
      simp only [handleRegister, hm]
      rw [if_pos hcond]
      exact ⟨rfl, Or.inl ⟨rfl, trivial⟩⟩
    · have hcond : ¬ ((none : Option Conn).isNone = true
          ∧ 0 < s.maxClients ∧ s.maxClients ≤ (s.members.length : Int)) :=
        fun hx => hfull hx.2
      simp only [handleRegister, hm]
      rw [if_neg hcond]
      simp only [getQueue, hq, Option.getD_some, trySend_fresh]
      rw [if_neg (by simp)]
      exact ⟨rfl, Or.inr (pushBroadcast_members _ _)⟩
  | some old =>
    have hold : old.connId ≠ c.connId := hkick old hm
    have hcond : ¬ ((some old : Option Conn).isNone = true
        ∧ 0 < s.maxClients ∧ s.maxClients ≤ (s.members.length : Int)) := by
      intro hx
      simp at hx
    simp only [handleRegister, hm, kickConn]
    rw [if_neg hcond]
    simp only [getQueue, alookup_aupdate]
    rw [if_neg hold]
    simp only [hq, Option.getD_some, trySend_fresh]
    rw [if_neg (by simp)]
    exact ⟨rfl, Or.inr (pushBroadcast_members _ _)⟩

/-- stepEvent on a register event: the loop never blocks and the members
map is unchanged (capacity rejection of an absent id) or updated at the
registering id. -/
theorem stepEvent_register_char (s : RoomState) (c : Conn)
    (hkick : ∀ old, alookup s.members c.usr.ID = some old → old.connId ≠ c.connId) :
    (stepEvent s (.register c)).2 = false
    ∧ (((stepEvent s (.register c)).1.members = s.members
          ∧ alookup s.members c.usr.ID = none)
        ∨ (stepEvent s (.register c)).1.members = ainsert s.members c.usr.ID c) := by
  have hq : alookup (ainsert s.queues c.connId freshSendQueue) c.connId
      = some freshSendQueue := by
    rw [alookup_ainsert, if_pos rfl]
  exact handleRegister_char
    { s with queues := ainsert s.queues c.connId freshSendQueue } c hq hkick

/-- The members map after a run of register and unregister events, seen
per user id: when the connection identities carried by the register
events are pairwise distinct (each registration carries a freshly
allocated Client) and none of them is already a member initially, the
loop never blocks, and each id holds either nothing or the connection of
its last register event, falling back to its initial entry when the run
contains no register for it. -/
theorem runEvents_members (evs : List RoomEvent) :
    ∀ (s : RoomState),
    (∀ kv ∈ s.members, kv.2.connId ∉ regConnIds evs) →
    (regConnIds evs).Nodup →
    (runEvents s evs).2 = false
    ∧ ∀ i, alookup (runEvents s evs).1.members i = none
        ∨ alookup (runEvents s evs).1.members i
            = (lastRegistered evs i).or (alookup s.members i) := by
  induction evs with
  | nil =>
    intro s _ _
    exact ⟨rfl, fun i => Or.inr rfl⟩
  | cons e rest ih =>
    intro s hfresh hnodup
    cases e with
    | register c =>
      rw [show regConnIds (RoomEvent.register c :: rest) = c.connId :: regConnIds rest
        from rfl] at hnodup
      obtain ⟨hni, hnr⟩ := List.nodup_cons.mp hnodup
      have hkick : ∀ old, alookup s.members c.usr.ID = some old →
          old.connId ≠ c.connId := by
        intro old hold heq2
        exact hfresh (c.usr.ID, old) (alookup_mem hold)
          (heq2 ▸ List.mem_cons_self _ _)
      obtain ⟨hflag, hmem⟩ := stepEvent_register_char s c hkick
      have hrun : runEvents s (RoomEvent.register c :: rest)
          = runEvents (stepEvent s (.register c)).1 rest := by
        simp only [runEvents, hflag]
        rfl
      have hfresh1 : ∀ kv ∈ (stepEvent s (.register c)).1.members,
          kv.2.connId ∉ regConnIds rest := by
        intro kv hkv
        rcases hmem with ⟨hsame, _⟩ | hins
        · rw [hsame] at hkv
          exact fun hx => hfresh kv hkv (List.mem_cons_of_mem _ hx)
        · rw [hins] at hkv
          rcases mem_ainsert hkv with hkv2 | hkv2
          · rw [hkv2]
            exact hni
          · exact fun hx => hfresh kv hkv2 (List.mem_cons_of_mem _ hx)
      obtain ⟨hflag2, hper⟩ := ih (stepEvent s (.register c)).1 hfresh1 hnr
      refine ⟨by rw [hrun]; exact hflag2, ?_⟩
      intro i
      rw [hrun]
      rcases hper i with h | h
      · exact Or.inl h
      · cases hlast : lastRegistered rest i with
        | some d =>
          right
          have hcons : lastRegistered (RoomEvent.register c :: rest) i = some d := by
            simp [lastRegistered, hlast]
          rw [h, hlast, hcons]
          rfl
        | none =>
          rw [hlast] at h
          have hcons : lastRegistered (RoomEvent.register c :: rest) i
              = if c.usr.ID = i then some c else none := by
            simp [lastRegistered, hlast]
          by_cases hci : c.usr.ID = i
          · rcases hmem with ⟨hsame, hnone⟩ | hins
            · left
              rw [h, hsame]
              show alookup s.members i = none
              rw [← hci]
              exact hnone
            · right
              rw [h, hins, hcons, if_pos hci, alookup_ainsert, if_pos hci]
              rfl
          · right
            rw [h, hcons, if_neg hci]
            rcases hmem with ⟨hsame, _⟩ | hins
            · rw [hsame]
            · rw [hins, alookup_ainsert, if_neg hci]
    | unregister c =>
      have hrun : runEvents s (RoomEvent.unregister c :: rest)
          = runEvents (handleUnregister s c) rest := by
        simp only [runEvents, stepEvent]
        rfl
      have hfresh1 : ∀ kv ∈ (handleUnregister s c).members,
          kv.2.connId ∉ regConnIds rest := by
        intro kv hkv
        rcases handleUnregister_members s c with hsame | hdel
        · rw [hsame] at hkv
          exact hfresh kv hkv
        · rw [hdel] at hkv
          exact hfresh kv (mem_aerase hkv)
      obtain ⟨hflag2, hper⟩ := ih (handleUnregister s c) hfresh1 hnodup
      refine ⟨by rw [hrun]; exact hflag2, ?_⟩
      intro i
      rw [hrun]
      rcases hper i with h | h
      · exact Or.inl h
      · cases hlast : lastRegistered rest i with
        | some d =>
          right
          have hcons : lastRegistered (RoomEvent.unregister c :: rest) i = some d := by
            simp [lastRegistered, hlast]
          rw [h, hlast, hcons]
          rfl
        | none =>
          rw [hlast] at h
          have hcons : lastRegistered (RoomEvent.unregister c :: rest) i = none := by
            simp [lastRegistered, hlast]
          rcases handleUnregister_members s c with hsame | hdel
          · right
            rw [h, hsame, hcons]
          · by_cases hci : c.usr.ID = i
            · left
              rw [h, hdel, alookup_aerase, if_pos hci]
              rfl
            · right
              rw [h, hdel, alookup_aerase, if_neg hci, hcons]

/-- C1. Starting from a fresh room, after any sequence of register and
unregister events whose registrations carry pairwise distinct (fresh)
connection identities, every user id is either absent from the members
map or maps exactly to the connection of its most recent register event;
and a handleUnregister for a connection whose id maps to a different
connection is a complete no-op: the state is unchanged, so no member is
removed, no queue is closed, and no USER_LEFT is broadcast. -/
theorem room_members_most_recent (code secret : String) (maxClients clock : Int)
    (evs : List RoomEvent) (i : String) (hnodup : (regConnIds evs).Nodup) :
    (alookup (runEvents (initRoom code maxClients secret clock) evs).1.members i = none
      ∨ alookup (runEvents (initRoom code maxClients secret clock) evs).1.members i
          = lastRegistered evs i)
    ∧ ∀ (s : RoomState) (c cur : Conn),
        alookup s.members c.usr.ID = some cur → cur.connId ≠ c.connId →
        handleUnregister s c = s := by
  constructor
  · have h := (runEvents_members evs (initRoom code maxClients secret clock)
      (by intro kv hkv; cases hkv) hnodup).2 i
    rcases h with h | h
    · exact Or.inl h
    · right
      rw [h]
      show (lastRegistered evs i).or none = lastRegistered evs i
      cases lastRegistered evs i <;> rfl
  · intro s c cur h1 h2
    exact handleUnregister_stale s c cur h1 h2

/-- demoC1Evs registers Alice twice, with fresh connection identities 1
and then 3 (a session replacement). -/
def demoC1Evs : List RoomEvent :=
  [RoomEvent.register connAlice, RoomEvent.register { usr := uAlice, connId := 3 }]

/-- Witness for C1 at concrete inputs: after the replacement run the id
u1 satisfies the most-recent-registration disjunction, and a stale
unregister (old connection identity 99) leaves the full room unchanged. -/
theorem room_members_most_recent_witness :
    (alookup (runEvents (initRoom "R" 2 "s" 0) demoC1Evs).1.members "u1" = none
      ∨ alookup (runEvents (initRoom "R" 2 "s" 0) demoC1Evs).1.members "u1"
          = lastRegistered demoC1Evs "u1")
    ∧ handleUnregister fullRoom { usr := uAlice, connId := 99 } = fullRoom :=
  ⟨(room_members_most_recent "R" "s" 2 0 demoC1Evs "u1" (by decide)).1,
   (room_members_most_recent "R" "s" 2 0 demoC1Evs "u1" (by decide)).2 fullRoom
     { usr := uAlice, connId := 99 } connAlice (by decide) (by decide)⟩

end Hz
